import Mathlib

/-!
Verification of the selection and geometry logic of `lsst/atmospec`
(`python/lsst/atmospec/processStar.py` and `python/lsst/atmospec/utils.py`)
against its natural-language specification.

Modelling conventions: pixel coordinates, image dimensions and the integer
configuration fields are modelled by `ℤ` (the bounding-box computation is
integer arithmetic; Python's floor division `//` is `Int.fdiv`); metric
values that are only compared, never combined (fluxes, ellipticities,
gains, pixel values) are modelled by `ℚ`; the ellipticity formula itself
is modelled over `ℝ`; Python exceptions are modelled by `Option`/`Except`;
Python dicts by insertion-ordered association lists; Python's `sorted` by
`List.insertionSort` (an ascending stable sort).
-/

namespace Atmospec

/-! ## Spectral bounding-box calculator

Embedding of `ProcessStarTask.calcSpectrumBBox` (processStar.py lines
786-816).  The two config fields the method reads are gathered in
`SpecConfig`; the exposure is only consulted for `getWidth()` and
`getHeight()`, which are passed explicitly.
-/

/-- The slice of `ProcessStarTaskConfig` read by `calcSpectrumBBox`:
`spectrumLengthPixels` (default 5000) and `offsetFromMainStar`
(default 100). -/
structure SpecConfig where
  spectrumLengthPixels : ℤ
  offsetFromMainStar : ℤ
deriving DecidableEq

/-- An axis-aligned box given by its corner coordinates, as computed by
`calcSpectrumBBox` before being handed to `afwGeom.Box2I`. -/
structure SpectrumBBox where
  xStart : ℤ
  xEnd : ℤ
  yStart : ℤ
  yEnd : ℤ
deriving DecidableEq

/-- The raw (pre-clipping) box of `calcSpectrumBBox` (processStar.py lines
792-804): `halfWidth = aperture//2`, `translate_y = offsetFromMainStar`
reassigned to `-extent - offsetFromMainStar` when `order == '-1'`, then
`xStart = sourceX - halfWidth`, `xEnd = sourceX + halfWidth - 1`,
`yStart = sourceY + translate_y`, `yEnd = yStart + extent - 1`. -/
def rawSpectrumBBox (cfg : SpecConfig) (centroid : ℤ × ℤ) (aperture : ℤ)
    (order : String) : SpectrumBBox :=
  let extent := cfg.spectrumLengthPixels
  let halfWidth := Int.fdiv aperture 2
  let translate_y : ℤ :=
    if order = "-1" then -extent - cfg.offsetFromMainStar
    else cfg.offsetFromMainStar
  let sourceX := centroid.1
  let sourceY := centroid.2
  let xStart := sourceX - halfWidth
  let xEnd := sourceX + halfWidth - 1
  let yStart := sourceY + translate_y
  let yEnd := yStart + extent - 1
  ⟨xStart, xEnd, yStart, yEnd⟩

/-- `ProcessStarTask.calcSpectrumBBox` (processStar.py lines 786-816):
the raw box is clipped to the image (`xEnd = min(xEnd, width-1)`,
`yEnd = min(yEnd, height-1)`, `yStart = max(yStart, 0)`,
`xStart = max(xStart, 0)`) and the result is returned when the assertion
`(xEnd > xStart) and (yEnd > yStart)` holds; an `AssertionError`
(modelled by `none`) is raised otherwise. -/
def calcSpectrumBBox (cfg : SpecConfig) (width height : ℤ)
    (centroid : ℤ × ℤ) (aperture : ℤ) (order : String) :
    Option SpectrumBBox :=
  let raw := rawSpectrumBBox cfg centroid aperture order
  let xEnd := min raw.xEnd (width - 1)
  let yEnd := min raw.yEnd (height - 1)
  let yStart := max raw.yStart 0
  let xStart := max raw.xStart 0
  if xEnd > xStart ∧ yEnd > yStart then
    some ⟨xStart, xEnd, yStart, yEnd⟩
  else
    none

/-- C1 (counterexample): at centroid (512, 512), aperture 250, extraction
length 5000, offset 100, order `+1`, image 1000 × 4000, the claim as stated
is false: its parenthetical asserts the pre-clipping `yEnd` is 6111, but
the code computes `yEnd = 512 + 100 + 5000 - 1 = 5611` before clipping. -/
theorem calcSpectrumBBox_example_yEnd_counterexample :
    ¬ (calcSpectrumBBox ⟨5000, 100⟩ 1000 4000 (512, 512) 250 "+1"
          = some ⟨387, 636, 612, 3999⟩
        ∧ (rawSpectrumBBox ⟨5000, 100⟩ (512, 512) 250 "+1").yEnd = 6111) := by
  decide

/-- C1 (amended): for centroid (512, 512), aperture 250, extraction length
5000, offset 100, order `+1` and an image of height 4000 and width at least
637, the computed box is exactly xStart = 387, xEnd = 636, yStart = 612,
yEnd = 3999, the yEnd being clipped from the pre-clipping value 5611 to the
image height minus one. -/
theorem calcSpectrumBBox_example (w : ℤ) (hw : 637 ≤ w) :
    calcSpectrumBBox ⟨5000, 100⟩ w 4000 (512, 512) 250 "+1"
        = some ⟨387, 636, 612, 3999⟩
      ∧ (rawSpectrumBBox ⟨5000, 100⟩ (512, 512) 250 "+1").yEnd = 5611 := by
  refine ⟨?_, by decide⟩
  have hraw : rawSpectrumBBox ⟨5000, 100⟩ (512, 512) 250 "+1"
      = ⟨387, 636, 612, 5611⟩ := by decide
  have hmin : min (636 : ℤ) (w - 1) = 636 := min_eq_left (by omega)
  simp only [calcSpectrumBBox, hraw, hmin]
  norm_num

/-- Witness for C1 at concrete width 1000. -/
theorem calcSpectrumBBox_example_witness :
    calcSpectrumBBox ⟨5000, 100⟩ 1000 4000 (512, 512) 250 "+1"
        = some ⟨387, 636, 612, 3999⟩
      ∧ (rawSpectrumBBox ⟨5000, 100⟩ (512, 512) 250 "+1").yEnd = 5611 :=
  calcSpectrumBBox_example 1000 (by decide)

/-- C2 (counterexample): for an odd aperture the pre-clipping box does not
satisfy `xEnd = xStart + aperture - 1`: with centroid (10, 20) and aperture
5 the code gives `xStart = 8` and `xEnd = 11`, not `8 + 5 - 1 = 12`. -/
theorem rawSpectrumBBox_odd_aperture_counterexample :
    ¬ ((rawSpectrumBBox ⟨5000, 100⟩ (10, 20) 5 "+1").xEnd
        = (rawSpectrumBBox ⟨5000, 100⟩ (10, 20) 5 "+1").xStart + 5 - 1) := by
  decide

/-- C2 (amended): for every centroid (x, y), aperture, extraction length
and offset, the pre-clipping box satisfies `xStart = x - aperture//2` and
`xEnd = xStart + 2*(aperture//2) - 1` (which equals `xStart + aperture - 1`
only when the aperture is even), with `yStart = y + offset` for order `+1`,
`yStart = y - extractionLength - offset` for order `-1`, and
`yEnd = yStart + extractionLength - 1` in both orders. -/
theorem rawSpectrumBBox_formulas (cfg : SpecConfig) (x y aperture : ℤ)
    (order : String) :
    let b := rawSpectrumBBox cfg (x, y) aperture order
    b.xStart = x - Int.fdiv aperture 2
      ∧ b.xEnd = b.xStart + 2 * Int.fdiv aperture 2 - 1
      ∧ (order = "+1" → b.yStart = y + cfg.offsetFromMainStar)
      ∧ (order = "-1" →
          b.yStart = y - cfg.spectrumLengthPixels - cfg.offsetFromMainStar)
      ∧ b.yEnd = b.yStart + cfg.spectrumLengthPixels - 1 := by
  dsimp only [rawSpectrumBBox]
  refine ⟨rfl, by ring, ?_, ?_, by ring⟩
  · intro h
    subst h
    rw [if_neg (by decide : ¬ ("+1" : String) = "-1")]
  · intro h
    subst h
    rw [if_pos rfl]
    ring

/-- Witness for C2: both order cases at a concrete input. -/
theorem rawSpectrumBBox_formulas_witness :
    (rawSpectrumBBox ⟨5000, 100⟩ (10, 20) 5 "+1").yStart = 20 + 100
      ∧ (rawSpectrumBBox ⟨5000, 100⟩ (10, 20) 5 "-1").yStart
          = 20 - 5000 - 100 :=
  ⟨(rawSpectrumBBox_formulas ⟨5000, 100⟩ 10 20 5 "+1").2.2.1 rfl,
   (rawSpectrumBBox_formulas ⟨5000, 100⟩ 10 20 5 "-1").2.2.2.1 rfl⟩

/-- C3: for every input, the calculator clips the raw box to
`xEnd ≤ width - 1`, `yEnd ≤ height - 1`, `xStart ≥ 0`, `yStart ≥ 0`; it
returns the clipped box exactly when the clipped box satisfies
`xEnd > xStart` and `yEnd > yStart`, and raises (returns `none`)
otherwise. -/
theorem calcSpectrumBBox_clip_invariant (cfg : SpecConfig)
    (width height : ℤ) (centroid : ℤ × ℤ) (aperture : ℤ) (order : String) :
    let raw := rawSpectrumBBox cfg centroid aperture order
    let clipped : SpectrumBBox :=
      ⟨max raw.xStart 0, min raw.xEnd (width - 1),
       max raw.yStart 0, min raw.yEnd (height - 1)⟩
    (clipped.xEnd > clipped.xStart ∧ clipped.yEnd > clipped.yStart →
        calcSpectrumBBox cfg width height centroid aperture order
          = some clipped)
      ∧ (¬ (clipped.xEnd > clipped.xStart ∧ clipped.yEnd > clipped.yStart) →
        calcSpectrumBBox cfg width height centroid aperture order = none) := by
  dsimp only
  constructor
  · intro h
    simp only [calcSpectrumBBox]
    exact if_pos h
  · intro h
    simp only [calcSpectrumBBox]
    exact if_neg h

/-- Witness for C3: a feasible geometry returns the clipped box, and an
infeasible one (aperture 1, which clips to an empty x-range) raises. -/
theorem calcSpectrumBBox_clip_invariant_witness :
    calcSpectrumBBox ⟨5000, 100⟩ 800 4000 (512, 512) 250 "+1"
        = some ⟨387, 636, 612, 3999⟩
      ∧ calcSpectrumBBox ⟨5000, 100⟩ 800 4000 (512, 512) 1 "+1" = none := by
  constructor
  · have h := (calcSpectrumBBox_clip_invariant ⟨5000, 100⟩ 800 4000
      (512, 512) 250 "+1").1 (by decide)
    rw [h]
    decide
  · exact (calcSpectrumBBox_clip_invariant ⟨5000, 100⟩ 800 4000
      (512, 512) 1 "+1").2 (by decide)

/-- C4 (code behaviour at the failing input): called with spectral order
`both`, the calculator does not fail; it silently computes exactly the
order `+1` box.  The spec requires an explicit unsupported-configuration
error for `both` (the source's own docstring records support for `both` as
missing), so this is a code bug, not intended behaviour. -/
theorem calcSpectrumBBox_both_order_silent :
    calcSpectrumBBox ⟨5000, 100⟩ 1000 4000 (512, 512) 250 "both"
        = calcSpectrumBBox ⟨5000, 100⟩ 1000 4000 (512, 512) 250 "+1"
      ∧ calcSpectrumBBox ⟨5000, 100⟩ 1000 4000 (512, 512) 250 "both"
        = some ⟨387, 636, 612, 3999⟩ := by
  decide

/-! ## Ellipticity

Embedding of `ProcessStarTask._getEllipticity` (processStar.py lines
399-417).  The Python method reads `Ixx`, `Iyy`, `Ixy` from a quadrupole
shape object; those three real numbers are passed directly.  Python's
`** 0.5` is modelled by the real power `Real.rpow`. -/

/-- `ProcessStarTask._getEllipticity`: `ePlus = (ixx - iyy)/(ixx + iyy)`,
`eCross = 2*ixy/(ixx + iyy)`, result `(ePlus**2 + eCross**2)**0.5`. -/
noncomputable def getEllipticity (ixx iyy ixy : ℝ) : ℝ :=
  let ePlus := (ixx - iyy) / (ixx + iyy)
  let eCross := 2 * ixy / (ixx + iyy)
  (ePlus ^ 2 + eCross ^ 2) ^ (0.5 : ℝ)

/-- C5: for every second-moment matrix with `ixx + iyy ≠ 0`, the
ellipticity helper returns `sqrt(ePlus² + eCross²)` with
`ePlus = (ixx - iyy)/(ixx + iyy)` and `eCross = 2*ixy/(ixx + iyy)`; in
particular for `ixx = iyy` and `ixy = 0` it returns 0. -/
theorem getEllipticity_formula (ixx iyy ixy : ℝ) (h : ixx + iyy ≠ 0) :
    getEllipticity ixx iyy ixy
        = Real.sqrt (((ixx - iyy) / (ixx + iyy)) ^ 2
            + (2 * ixy / (ixx + iyy)) ^ 2)
      ∧ (ixx = iyy → ixy = 0 → getEllipticity ixx iyy ixy = 0) := by
  constructor
  · dsimp only [getEllipticity]
    rw [show (0.5 : ℝ) = 1 / 2 by norm_num, ← Real.sqrt_eq_rpow]
  · intro h1 h2
    subst h1
    subst h2
    have h0 : ((0 : ℝ)) ^ (0.5 : ℝ) = 0 := Real.zero_rpow (by norm_num)
    simp [getEllipticity, sub_self, zero_div, h0]

/-- Witness for C5: the circular case `ixx = iyy = 1`, `ixy = 0` has
ellipticity 0. -/
theorem getEllipticity_formula_witness :
    (1 : ℝ) + 1 ≠ 0 ∧ getEllipticity 1 1 0 = 0 :=
  ⟨by norm_num, (getEllipticity_formula 1 1 0 (by norm_num)).2 rfl rfl⟩

/-! ## Main-source selectors

Embedding of `ProcessStarTask.getRoundestObject` (processStar.py lines
419-448) and `ProcessStarTask.getBrightestObject` (lines 450-479).  Both
iterate over the footprints of a `FootprintSet`, computing for each its
ellipticity `e = self._getEllipticity(fp.getShape())` and its flux
`fp.getSpans().flatten(...).sum()`; those two per-footprint metric values
come from external afw objects and are carried as fields of the
`Footprint` model.  The Python dict keyed by the metric is modelled by an
insertion-ordered association list, and Python's `sorted` by
`List.insertionSort` with `≤` (an ascending sort). -/

/-- A detected footprint together with the two metric values the
selectors read from it: the ellipticity of its shape and the flux summed
under its spans.  `fpId` stands for the footprint's identity. -/
structure Footprint where
  fpId : ℕ
  ellipticity : ℚ
  flux : ℚ
deriving DecidableEq

/-- Python dict assignment `d[k] = v` on an insertion-ordered dict:
replaces the value at an existing key in place, otherwise appends the new
binding. -/
def dictSet (d : List (ℚ × Footprint)) (k : ℚ) (v : Footprint) :
    List (ℚ × Footprint) :=
  if ∃ p ∈ d, p.1 = k then
    d.map (fun p => if p.1 = k then (k, v) else p)
  else
    d ++ [(k, v)]

/-- Python dict lookup `d[k]` on the association-list model (keys of a
dict are unique, so the first binding is the binding). -/
def dictGet : List (ℚ × Footprint) → ℚ → Option Footprint
  | [], _ => none
  | (k', v) :: rest, k => if k' = k then some v else dictGet rest k

/-- The `sourceDict` built by `getRoundestObject`: every footprint with
`flux > fluxCut` is inserted under its ellipticity
(`sourceDict[e] = fp`). -/
def buildRoundDict (footPrints : List Footprint) (fluxCut : ℚ) :
    List (ℚ × Footprint) :=
  footPrints.foldl
    (fun d fp => if fp.flux > fluxCut then dictSet d fp.ellipticity fp else d)
    []

/-- `ProcessStarTask.getRoundestObject` (processStar.py lines 419-448):
the result is `sourceDict[sorted(sourceDict.keys())[0]]`; indexing `[0]`
into the empty key list (no survivor) raises, modelled by `none`. -/
def getRoundestObject (footPrints : List Footprint) (fluxCut : ℚ) :
    Option Footprint :=
  let sourceDict := buildRoundDict footPrints fluxCut
  match (sourceDict.map Prod.fst).insertionSort (· ≤ ·) with
  | [] => none
  | k :: _ => dictGet sourceDict k

/-- The `sourceDict` built by `getBrightestObject`: every footprint with
`e < roundnessCut` is inserted under its flux (`sourceDict[flux] = fp`). -/
def buildBrightDict (footPrints : List Footprint) (roundnessCut : ℚ) :
    List (ℚ × Footprint) :=
  footPrints.foldl
    (fun d fp =>
      if fp.ellipticity < roundnessCut then dictSet d fp.flux fp else d)
    []

/-- `ProcessStarTask.getBrightestObject` (processStar.py lines 450-479):
the result is `sourceDict[sorted(sourceDict.keys())[-1]]`; indexing `[-1]`
into the empty key list (no survivor) raises, modelled by `none`. -/
def getBrightestObject (footPrints : List Footprint) (roundnessCut : ℚ) :
    Option Footprint :=
  let sourceDict := buildBrightDict footPrints roundnessCut
  match ((sourceDict.map Prod.fst).insertionSort (· ≤ ·)).getLast? with
  | none => none
  | some k => dictGet sourceDict k

/-! Association-list dictionary lemmas. -/

theorem mem_of_mem_dictSet {d : List (ℚ × Footprint)} {k : ℚ}
    {v : Footprint} {p : ℚ × Footprint} (hp : p ∈ dictSet d k v) :
    p ∈ d ∨ p = (k, v) := by
  unfold dictSet at hp
  split_ifs at hp
  · rcases List.mem_map.mp hp with ⟨q, hqd, hfq⟩
    by_cases hqk : q.1 = k
    · right
      rw [← hfq, if_pos hqk]
    · left
      rw [← hfq, if_neg hqk]
      exact hqd
  · rcases List.mem_append.mp hp with h | h
    · exact Or.inl h
    · exact Or.inr (List.mem_singleton.mp h)

theorem mem_keys_dictSet {d : List (ℚ × Footprint)} (k : ℚ) (v : Footprint)
    {a : ℚ} (ha : a ∈ d.map Prod.fst) :
    a ∈ (dictSet d k v).map Prod.fst := by
  unfold dictSet
  split_ifs with hany
  · rcases List.mem_map.mp ha with ⟨q, hqd, hfst⟩
    by_cases hqk : q.1 = k
    · refine List.mem_map.mpr ⟨(k, v), List.mem_map.mpr ⟨q, hqd, ?_⟩, ?_⟩
      · rw [if_pos hqk]
      · rw [← hfst, hqk]
    · exact List.mem_map.mpr
        ⟨q, List.mem_map.mpr ⟨q, hqd, by rw [if_neg hqk]⟩, hfst⟩
  · rw [List.map_append]
    exact List.mem_append_left _ ha

theorem key_mem_keys_dictSet (d : List (ℚ × Footprint)) (k : ℚ)
    (v : Footprint) : k ∈ (dictSet d k v).map Prod.fst := by
  unfold dictSet
  split_ifs with hany
  · rcases hany with ⟨q, hqd, hqk⟩
    exact List.mem_map.mpr
      ⟨(k, v), List.mem_map.mpr ⟨q, hqd, by rw [if_pos hqk]⟩, rfl⟩
  · rw [List.map_append]
    exact List.mem_append_right _ (List.mem_singleton.mpr rfl)

theorem dictGet_mem {d : List (ℚ × Footprint)} {k : ℚ} {v : Footprint}
    (h : dictGet d k = some v) : (k, v) ∈ d := by
  induction d with
  | nil => cases h
  | cons p t ih =>
    obtain ⟨k', v'⟩ := p
    simp only [dictGet] at h
    split_ifs at h with hk
    · obtain rfl : v' = v := Option.some_injective _ h
      rw [← hk]
      exact List.mem_cons_self _ _
    · exact List.mem_cons_of_mem _ (ih h)

theorem dictGet_isSome_of_key_mem {d : List (ℚ × Footprint)} {k : ℚ}
    (h : k ∈ d.map Prod.fst) : ∃ v, dictGet d k = some v := by
  induction d with
  | nil => cases h
  | cons p t ih =>
    obtain ⟨k', v'⟩ := p
    by_cases hk : k' = k
    · exact ⟨v', by simp [dictGet, hk]⟩
    · have hkt : k ∈ t.map Prod.fst := by
        rcases List.mem_map.mp h with ⟨q, hq, hfst⟩
        rcases List.mem_cons.mp hq with rfl | hq'
        · exact absurd hfst hk
        · exact List.mem_map.mpr ⟨q, hq', hfst⟩
      rcases ih hkt with ⟨v, hv⟩
      exact ⟨v, by simp [dictGet, hk, hv]⟩

/-! Lemmas about the dict-building fold shared by the two selectors. -/

theorem foldlDict_mem (key : Footprint → ℚ) (keep : Footprint → Prop)
    [DecidablePred keep] (l : List Footprint) :
    ∀ (d0 : List (ℚ × Footprint)) (p : ℚ × Footprint),
      p ∈ l.foldl
          (fun d fp => if keep fp then dictSet d (key fp) fp else d) d0 →
      p ∈ d0 ∨ (keep p.2 ∧ p.1 = key p.2 ∧ p.2 ∈ l) := by
  induction l with
  | nil =>
    intro d0 p hp
    exact Or.inl (by simpa using hp)
  | cons fp t ih =>
    intro d0 p hp
    simp only [List.foldl_cons] at hp
    rcases ih _ p hp with h | h
    · by_cases hk : keep fp
      · rw [if_pos hk] at h
        rcases mem_of_mem_dictSet h with h' | h'
        · exact Or.inl h'
        · subst h'
          exact Or.inr ⟨hk, rfl, List.mem_cons_self _ _⟩
      · rw [if_neg hk] at h
        exact Or.inl h
    · exact Or.inr ⟨h.1, h.2.1, List.mem_cons_of_mem _ h.2.2⟩

theorem foldlDict_keys_mono (key : Footprint → ℚ) (keep : Footprint → Prop)
    [DecidablePred keep] (l : List Footprint) :
    ∀ (d0 : List (ℚ × Footprint)) (a : ℚ), a ∈ d0.map Prod.fst →
      a ∈ (l.foldl
        (fun d fp => if keep fp then dictSet d (key fp) fp else d) d0).map
        Prod.fst := by
  induction l with
  | nil =>
    intro d0 a h
    simpa using h
  | cons fp t ih =>
    intro d0 a h
    simp only [List.foldl_cons]
    apply ih
    by_cases hk : keep fp
    · rw [if_pos hk]
      exact mem_keys_dictSet _ _ h
    · rw [if_neg hk]
      exact h

theorem foldlDict_key_mem (key : Footprint → ℚ) (keep : Footprint → Prop)
    [DecidablePred keep] (l : List Footprint) :
    ∀ (d0 : List (ℚ × Footprint)) (fp : Footprint), fp ∈ l → keep fp →
      key fp ∈ (l.foldl
        (fun d fp => if keep fp then dictSet d (key fp) fp else d) d0).map
        Prod.fst := by
  induction l with
  | nil =>
    intro d0 fp h
    cases h
  | cons g t ih =>
    intro d0 fp hmem hk
    simp only [List.foldl_cons]
    rcases List.mem_cons.mp hmem with rfl | hmem'
    · rw [if_pos hk]
      exact foldlDict_keys_mono key keep t _ _ (key_mem_keys_dictSet _ _ _)
    · exact ih _ fp hmem' hk

/-- In a `≤`-sorted list, every element is bounded by the last one. -/
theorem sorted_le_getLast {l : List ℚ} (hs : l.Sorted (· ≤ ·)) {k : ℚ}
    (hk : l.getLast? = some k) : ∀ x ∈ l, x ≤ k := by
  induction l with
  | nil => cases hk
  | cons a t ih =>
    cases t with
    | nil =>
      intro x hx
      obtain rfl : a = k := by simpa using hk
      exact le_of_eq (by simpa using hx)
    | cons b t' =>
      rw [List.getLast?_cons_cons] at hk
      have hst := (List.sorted_cons.mp hs).2
      have hall := (List.sorted_cons.mp hs).1
      intro x hx
      rcases List.mem_cons.mp hx with rfl | hx'
      · calc x ≤ b := hall b (List.mem_cons_self _ _)
          _ ≤ k := ih hst hk b (List.mem_cons_self _ _)
      · exact ih hst hk x hx'

/-- C6: in Roundest-mode, whenever some footprint has flux strictly above
the cutoff and the survivors have pairwise distinct ellipticities, the
selector succeeds and returns a surviving footprint of minimum
ellipticity; footprints with flux ≤ the cutoff are never returned. -/
theorem getRoundestObject_min_ellipticity (footPrints : List Footprint)
    (fluxCut : ℚ) (hex : ∃ fp ∈ footPrints, fp.flux > fluxCut)
    (hdist : footPrints.Pairwise (fun a b => a.flux > fluxCut →
      b.flux > fluxCut → a.ellipticity ≠ b.ellipticity)) :
    ∃ w, getRoundestObject footPrints fluxCut = some w
      ∧ w ∈ footPrints ∧ w.flux > fluxCut
      ∧ ∀ fp ∈ footPrints, fp.flux > fluxCut →
          w.ellipticity ≤ fp.ellipticity := by
  obtain ⟨fp0, hfp0, hflux0⟩ := hex
  have hkeys0 : fp0.ellipticity
      ∈ (buildRoundDict footPrints fluxCut).map Prod.fst :=
    foldlDict_key_mem (fun fp => fp.ellipticity)
      (fun fp => fp.flux > fluxCut) footPrints [] fp0 hfp0 hflux0
  have hperm := List.perm_insertionSort (α := ℚ) (· ≤ ·)
    ((buildRoundDict footPrints fluxCut).map Prod.fst)
  cases hs : ((buildRoundDict footPrints fluxCut).map
      Prod.fst).insertionSort (· ≤ ·) with
  | nil =>
    exfalso
    have hmem0 : fp0.ellipticity ∈ ((buildRoundDict footPrints
        fluxCut).map Prod.fst).insertionSort (· ≤ ·) :=
      hperm.mem_iff.mpr hkeys0
    rw [hs] at hmem0
    cases hmem0
  | cons k rest =>
    have hkmem : k ∈ (buildRoundDict footPrints fluxCut).map Prod.fst := by
      apply hperm.mem_iff.mp
      rw [hs]
      exact List.mem_cons_self _ _
    obtain ⟨w, hw⟩ := dictGet_isSome_of_key_mem hkmem
    have hmemd : (k, w) ∈ buildRoundDict footPrints fluxCut := dictGet_mem hw
    obtain ⟨hkeep, hkey, hmemfps⟩ :=
      (foldlDict_mem (fun fp => fp.ellipticity)
        (fun fp => fp.flux > fluxCut) footPrints [] (k, w)
        hmemd).resolve_left (List.not_mem_nil _)
    refine ⟨w, ?_, hmemfps, hkeep, ?_⟩
    · show getRoundestObject footPrints fluxCut = some w
      unfold getRoundestObject
      dsimp only
      rw [hs]
      exact hw
    · intro fp hfp hkfp
      have hfpkey : fp.ellipticity
          ∈ (buildRoundDict footPrints fluxCut).map Prod.fst :=
        foldlDict_key_mem (fun fp => fp.ellipticity)
          (fun fp => fp.flux > fluxCut) footPrints [] fp hfp hkfp
      have hfpin : fp.ellipticity ∈ (k :: rest) := by
        rw [← hs]
        exact hperm.mem_iff.mpr hfpkey
      have hsorted : (k :: rest).Sorted (· ≤ ·) := by
        rw [← hs]
        exact List.sorted_insertionSort (· ≤ ·) _
      rcases List.mem_cons.mp hfpin with heq | hrest
      · exact le_of_eq (hkey.symm.trans heq.symm)
      · exact hkey ▸ (List.sorted_cons.mp hsorted).1 _ hrest

/-- Witness for C6 on a concrete footprint set: the cut 6 removes the
footprint of flux 5; among the two survivors the one with ellipticity 3
wins over the one with ellipticity 5. -/
theorem getRoundestObject_min_ellipticity_witness :
    ∃ w, getRoundestObject [⟨0, 5, 10⟩, ⟨1, 1, 5⟩, ⟨2, 3, 8⟩] 6 = some w
      ∧ w ∈ [⟨0, 5, 10⟩, ⟨1, 1, 5⟩, ⟨2, 3, 8⟩] ∧ w.flux > 6
      ∧ ∀ fp ∈ ([⟨0, 5, 10⟩, ⟨1, 1, 5⟩, ⟨2, 3, 8⟩] : List Footprint),
          fp.flux > 6 → w.ellipticity ≤ fp.ellipticity :=
  getRoundestObject_min_ellipticity _ _
    ⟨⟨0, 5, 10⟩, by decide, by decide⟩ (by decide)

/-- C7: in Brightest-mode, whenever some footprint has ellipticity
strictly below the cutoff and the survivors have pairwise distinct
fluxes, the selector succeeds and returns a surviving footprint of
maximum flux; footprints with ellipticity ≥ the cutoff are never
returned. -/
theorem getBrightestObject_max_flux (footPrints : List Footprint)
    (roundnessCut : ℚ)
    (hex : ∃ fp ∈ footPrints, fp.ellipticity < roundnessCut)
    (hdist : footPrints.Pairwise (fun a b => a.ellipticity < roundnessCut →
      b.ellipticity < roundnessCut → a.flux ≠ b.flux)) :
    ∃ w, getBrightestObject footPrints roundnessCut = some w
      ∧ w ∈ footPrints ∧ w.ellipticity < roundnessCut
      ∧ ∀ fp ∈ footPrints, fp.ellipticity < roundnessCut →
          fp.flux ≤ w.flux := by
  obtain ⟨fp0, hfp0, he0⟩ := hex
  have hkeys0 : fp0.flux
      ∈ (buildBrightDict footPrints roundnessCut).map Prod.fst :=
    foldlDict_key_mem (fun fp => fp.flux)
      (fun fp => fp.ellipticity < roundnessCut) footPrints [] fp0 hfp0 he0
  have hperm := List.perm_insertionSort (α := ℚ) (· ≤ ·)
    ((buildBrightDict footPrints roundnessCut).map Prod.fst)
  have hne : ((buildBrightDict footPrints roundnessCut).map
      Prod.fst).insertionSort (· ≤ ·) ≠ [] := by
    intro h0
    have hmem0 : fp0.flux ∈ ((buildBrightDict footPrints
        roundnessCut).map Prod.fst).insertionSort (· ≤ ·) :=
      hperm.mem_iff.mpr hkeys0
    rw [h0] at hmem0
    cases hmem0
  obtain ⟨k, hk⟩ : ∃ k, (((buildBrightDict footPrints roundnessCut).map
      Prod.fst).insertionSort (· ≤ ·)).getLast? = some k :=
    ⟨_, List.getLast?_eq_getLast _ hne⟩
  have hkmem : k ∈ (buildBrightDict footPrints roundnessCut).map
      Prod.fst := by
    apply hperm.mem_iff.mp
    obtain ⟨hne', heq⟩ := List.mem_getLast?_eq_getLast hk
    rw [heq]
    exact List.getLast_mem hne'
  obtain ⟨w, hw⟩ := dictGet_isSome_of_key_mem hkmem
  have hmemd : (k, w) ∈ buildBrightDict footPrints roundnessCut :=
    dictGet_mem hw
  obtain ⟨hkeep, hkey, hmemfps⟩ :=
    (foldlDict_mem (fun fp => fp.flux)
      (fun fp => fp.ellipticity < roundnessCut) footPrints [] (k, w)
      hmemd).resolve_left (List.not_mem_nil _)
  refine ⟨w, ?_, hmemfps, hkeep, ?_⟩
  · show getBrightestObject footPrints roundnessCut = some w
    unfold getBrightestObject
    dsimp only
    rw [hk]
    exact hw
  · intro fp hfp hkfp
    have hfpkey : fp.flux
        ∈ (buildBrightDict footPrints roundnessCut).map Prod.fst :=
      foldlDict_key_mem (fun fp => fp.flux)
        (fun fp => fp.ellipticity < roundnessCut) footPrints [] fp hfp hkfp
    have hfpin : fp.flux ∈ ((buildBrightDict footPrints roundnessCut).map
        Prod.fst).insertionSort (· ≤ ·) :=
      hperm.mem_iff.mpr hfpkey
    have hsorted := List.sorted_insertionSort (α := ℚ) (· ≤ ·)
      ((buildBrightDict footPrints roundnessCut).map Prod.fst)
    exact hkey ▸ sorted_le_getLast hsorted hk fp.flux hfpin

/-- Witness for C7 on a concrete footprint set: the roundness cut 2
removes the footprint of ellipticity 5; among the two survivors the one
with flux 20 wins over the one with flux 10. -/
theorem getBrightestObject_max_flux_witness :
    ∃ w, getBrightestObject [⟨0, 1, 10⟩, ⟨1, 5, 50⟩, ⟨2, 0, 20⟩] 2 = some w
      ∧ w ∈ [⟨0, 1, 10⟩, ⟨1, 5, 50⟩, ⟨2, 0, 20⟩] ∧ w.ellipticity < 2
      ∧ ∀ fp ∈ ([⟨0, 1, 10⟩, ⟨1, 5, 50⟩, ⟨2, 0, 20⟩] : List Footprint),
          fp.ellipticity < 2 → fp.flux ≤ w.flux :=
  getBrightestObject_max_flux _ _
    ⟨⟨0, 1, 10⟩, by decide, by decide⟩ (by decide)

/-! ## Target locator

Embedding of `getTargetCentroidFromWcs` (processStar.py lines 59-114) and
`simbadLocationForTarget` (lines 117-149).  The two external catalog
queries are opaque network calls; their outcomes are passed in: the
Vizier attempt (`vizierLocationForTarget`, which either returns a sky
location — optionally motion-corrected — or raises `ValueError`) as an
`Except`, and the raw Simbad row list as a list.  The exposure's fitted
WCS `skyToPixel` is the function `wcs`. -/

/-- A sky location; its coordinate values are opaque to the control flow
under study. -/
structure SpherePt where
  ra : ℚ
  dec : ℚ
deriving DecidableEq

/-- One row of a Simbad query result (its parsed RA/DEC columns). -/
structure SimbadRow where
  ra : ℚ
  dec : ℚ
deriving DecidableEq

/-- `simbadLocationForTarget` (processStar.py lines 117-149): raises
`ValueError` when the query returned no rows (`if not obj`) or more than
one row (`if len(obj) != 1`), otherwise builds the sky location from the
single row. -/
def simbadLocationForTarget (obj : List SimbadRow) :
    Except String SpherePt :=
  match obj with
  | [] => .error "Found failed to find target in simbad!"
  | [row] => .ok ⟨row.ra, row.dec⟩
  | _ => .error "Found several simbad entries for target!"

/-- `getTargetCentroidFromWcs` (processStar.py lines 59-114): try Vizier;
on `ValueError` fail over to Simbad; a `ValueError` from Simbad (zero or
several matches) is caught, logged, and `None` is returned.  A result
`.ok r` means the call returns `r` normally; `.error` would mean an
exception escaping to the caller (which never happens). -/
def getTargetCentroidFromWcs (wcs : SpherePt → ℚ × ℚ)
    (vizierResult : Except Unit SpherePt) (simbadObj : List SimbadRow) :
    Except String (Option (ℚ × ℚ)) :=
  match vizierResult with
  | .ok loc => .ok (some (wcs loc))
  | .error _ =>
    match simbadLocationForTarget simbadObj with
    | .ok loc => .ok (some (wcs loc))
    | .error _ => .ok none

/-- C8: Vizier is attempted first — when it succeeds the result is its
projected location, whatever Simbad would have answered — and when Vizier
fails and Simbad yields zero or multiple rows, the locator returns a
normal "not found" (`.ok none`) rather than letting the exception
escape. -/
theorem getTargetCentroidFromWcs_fallback (wcs : SpherePt → ℚ × ℚ)
    (vizierResult : Except Unit SpherePt) (simbadObj : List SimbadRow) :
    (∀ loc, vizierResult = .ok loc →
        getTargetCentroidFromWcs wcs vizierResult simbadObj
          = .ok (some (wcs loc)))
      ∧ (∀ e, vizierResult = .error e → simbadObj.length ≠ 1 →
        getTargetCentroidFromWcs wcs vizierResult simbadObj = .ok none) := by
  constructor
  · intro loc h
    subst h
    rfl
  · intro e h hlen
    subst h
    match simbadObj, hlen with
    | [], _ => rfl
    | [row], hlen => exact absurd rfl hlen
    | row1 :: row2 :: t, _ => rfl

/-- Witness for C8: a successful Vizier lookup is projected through the
WCS, and a Vizier failure with an empty Simbad answer gives "not
found". -/
theorem getTargetCentroidFromWcs_fallback_witness :
    getTargetCentroidFromWcs (fun p => (p.ra, p.dec)) (.ok ⟨1, 2⟩) []
        = .ok (some (1, 2))
      ∧ getTargetCentroidFromWcs (fun p => (p.ra, p.dec)) (.error ()) []
        = .ok none :=
  ⟨(getTargetCentroidFromWcs_fallback _ _ _).1 ⟨1, 2⟩ rfl,
   (getTargetCentroidFromWcs_fallback _ _ _).2 () rfl (by decide)⟩

/-! ## Target-name validation in ProcessStarTask.run -/

/-- The non-celestial placeholder names rejected by `ProcessStarTask.run`
(processStar.py line 756). -/
def invalidTargets : List String :=
  ["FlatField position", "Park position", "Test", "NOTSET"]

/-- The target-name resolution of `ProcessStarTask.run` (processStar.py
lines 751-754): the OBJECT metadata value, overridden by
`config.forceObjectName` when that is truthy (non-empty). -/
def resolveTarget (metadataObject forceObjectName : String) : String :=
  if forceObjectName ≠ "" then forceObjectName else metadataObject

/-- The target-name validation step of `ProcessStarTask.run`
(processStar.py lines 751-759): the resolved target is checked against
the placeholder list; a placeholder raises `ValueError` before
`spectractor.run` is invoked, otherwise extraction proceeds with the
resolved target (`.ok target`). -/
def runTargetValidation (metadataObject forceObjectName : String) :
    Except String String :=
  let target := resolveTarget metadataObject forceObjectName
  if target ∈ invalidTargets then
    .error ("OBJECT set to " ++ target
      ++ " - this is not a celestial object!")
  else
    .ok target

/-- C9: whenever the resolved target name is one of the placeholder
names, the pipeline step raises before extraction is invoked; for every
other resolved name the check raises nothing and extraction proceeds with
that name. -/
theorem runTargetValidation_rejects_placeholders
    (metadataObject forceObjectName : String) :
    (resolveTarget metadataObject forceObjectName ∈ invalidTargets →
        runTargetValidation metadataObject forceObjectName
          = .error ("OBJECT set to "
              ++ resolveTarget metadataObject forceObjectName
              ++ " - this is not a celestial object!"))
      ∧ (resolveTarget metadataObject forceObjectName ∉ invalidTargets →
        runTargetValidation metadataObject forceObjectName
          = .ok (resolveTarget metadataObject forceObjectName)) := by
  constructor
  · intro h
    simp only [runTargetValidation]
    rw [if_pos h]
  · intro h
    simp only [runTargetValidation]
    rw [if_neg h]

/-- Witness for C9: the placeholder `NOTSET` is rejected and the ordinary
name `HD 55852` is accepted. -/
theorem runTargetValidation_witness :
    runTargetValidation "NOTSET" ""
        = .error "OBJECT set to NOTSET - this is not a celestial object!"
      ∧ runTargetValidation "HD 55852" "" = .ok "HD 55852" :=
  ⟨(runTargetValidation_rejects_placeholders "NOTSET" "").1 (by decide),
   (runTargetValidation_rejects_placeholders "HD 55852" "").2 (by decide)⟩

/-! ## makeGainFlat

Embedding of `makeGainFlat` (utils.py lines 27-39).  The afw exposure is
modelled by its detector (a list of amplifiers, each with a name and an
integer bounding box) and its three planes, total functions on integer
pixel coordinates.  The in-place numpy writes become functional updates
applied in detector order. -/

/-- An integer pixel box `[x0, x1] × [y0, y1]` (an amplifier's bbox). -/
structure Box2I where
  x0 : ℤ
  y0 : ℤ
  x1 : ℤ
  y1 : ℤ
deriving DecidableEq

/-- Membership of a pixel in a box. -/
def Box2I.containsPt (b : Box2I) (p : ℤ × ℤ) : Prop :=
  b.x0 ≤ p.1 ∧ p.1 ≤ b.x1 ∧ b.y0 ≤ p.2 ∧ p.2 ≤ b.y1

instance (b : Box2I) (p : ℤ × ℤ) : Decidable (b.containsPt p) := by
  unfold Box2I.containsPt
  infer_instance

/-- An amplifier of the detector: `getName()` and `getBBox()`. -/
structure Amplifier where
  name : String
  bbox : Box2I
deriving DecidableEq

/-- The three planes of an afw `MaskedImage`. -/
structure MaskedImage where
  image : ℤ × ℤ → ℚ
  mask : ℤ × ℤ → ℕ
  variance : ℤ × ℤ → ℚ

/-- An afw `Exposure`: its detector and its masked image. -/
structure Exposure where
  detector : List Amplifier
  maskedImage : MaskedImage

/-- Python dict lookup `gainDict[n]` on the association-list model. -/
def gainGet : List (String × ℚ) → String → Option ℚ
  | [], _ => none
  | (n', g) :: rest, n => if n' = n then some g else gainGet rest n

/-- The per-amplifier write
`flat[bbox].maskedImage.image.array[:, :] = gainDict[amp.getName()]`:
every pixel of the amplifier's bbox is set to the gain, the rest of the
image is unchanged. -/
def writeAmpGain (img : ℤ × ℤ → ℚ) (amp : Amplifier) (g : ℚ) :
    ℤ × ℤ → ℚ :=
  fun p => if amp.bbox.containsPt p then g else img p

/-- `makeGainFlat` (utils.py lines 27-39): assert that the gain dict's
key set equals the detector's amplifier-name set (`AssertionError`,
modelled by `none`, is raised before any pixel is written), then write
each amplifier's gain over its bbox in detector order, and finally zero
the whole mask plane (`mask[:] = 0x0`) and variance plane
(`variance[:] = 0.0`). -/
def makeGainFlat (detectorExposure : Exposure)
    (gainDict : List (String × ℚ)) : Option Exposure :=
  let ampNames := detectorExposure.detector.map Amplifier.name
  if (∀ n ∈ gainDict.map Prod.fst, n ∈ ampNames)
      ∧ (∀ n ∈ ampNames, n ∈ gainDict.map Prod.fst) then
    some
      { detector := detectorExposure.detector
        maskedImage :=
          { image := detectorExposure.detector.foldl
              (fun img amp =>
                writeAmpGain img amp ((gainGet gainDict amp.name).getD 0))
              detectorExposure.maskedImage.image
            mask := fun _ => 0
            variance := fun _ => 0 } }
  else
    none

/-- Two amplifiers with the same bounding box `[0,1] × [0,1]`. -/
def ampOverlapA : Amplifier := ⟨"A", ⟨0, 0, 1, 1⟩⟩

/-- Second overlapping amplifier, written after `ampOverlapA`. -/
def ampOverlapB : Amplifier := ⟨"B", ⟨0, 0, 1, 1⟩⟩

/-- An exposure whose two amplifiers overlap completely. -/
def overlapExposure : Exposure :=
  ⟨[ampOverlapA, ampOverlapB], ⟨fun _ => 0, fun _ => 0, fun _ => 0⟩⟩

/-- Gains for the overlapping detector: amplifier A gets 1, B gets 2. -/
def overlapGains : List (String × ℚ) := [("A", 1), ("B", 2)]

/-- C10 (counterexample): with a gain dict whose key set equals the
amplifier names exactly, the pixel (0, 0) lies in amplifier A's bbox and
A's gain is 1, yet the returned flat holds 2 there (amplifier B, written
later, overlaps A), so not every pixel inside each amplifier's bbox gets
that amplifier's gain. -/
theorem makeGainFlat_overlap_counterexample :
    overlapGains.map Prod.fst = ["A", "B"]
      ∧ overlapExposure.detector.map Amplifier.name = ["A", "B"]
      ∧ ampOverlapA ∈ overlapExposure.detector
      ∧ ampOverlapA.bbox.containsPt (0, 0)
      ∧ gainGet overlapGains ampOverlapA.name = some 1
      ∧ (makeGainFlat overlapExposure overlapGains).map
          (fun f => f.maskedImage.image (0, 0)) = some 2
      ∧ (2 : ℚ) ≠ 1 := by
  decide

/-! Lemmas about the per-amplifier write fold. -/

theorem writeAmps_of_not_contains (gainOf : Amplifier → ℚ)
    (amps : List Amplifier) :
    ∀ (img : ℤ × ℤ → ℚ) (p : ℤ × ℤ),
      (∀ amp ∈ amps, ¬ amp.bbox.containsPt p) →
      amps.foldl (fun img amp => writeAmpGain img amp (gainOf amp)) img p
        = img p := by
  induction amps with
  | nil =>
    intro img p h
    rfl
  | cons b t ih =>
    intro img p h
    simp only [List.foldl_cons]
    rw [ih _ p fun amp hamp => h amp (List.mem_cons_of_mem _ hamp)]
    unfold writeAmpGain
    rw [if_neg (h b (List.mem_cons_self _ _))]

theorem writeAmps_of_contains (gainOf : Amplifier → ℚ)
    (amps : List Amplifier) :
    ∀ (img : ℤ × ℤ → ℚ) (p : ℤ × ℤ) (a : Amplifier),
      amps.Pairwise (fun a b => ∀ p : ℤ × ℤ,
        ¬ (a.bbox.containsPt p ∧ b.bbox.containsPt p)) →
      a ∈ amps → a.bbox.containsPt p →
      amps.foldl (fun img amp => writeAmpGain img amp (gainOf amp)) img p
        = gainOf a := by
  induction amps with
  | nil =>
    intro img p a _ ha
    cases ha
  | cons b t ih =>
    intro img p a hpw ha hp
    obtain ⟨hb, ht⟩ := List.pairwise_cons.mp hpw
    simp only [List.foldl_cons]
    rcases List.mem_cons.mp ha with rfl | ha'
    · rw [writeAmps_of_not_contains gainOf t _ p
        fun amp hamp hcont => hb amp hamp p ⟨hp, hcont⟩]
      unfold writeAmpGain
      rw [if_pos hp]
    · exact ih _ p a ht ha' hp

theorem gainGet_isSome_of_key_mem {l : List (String × ℚ)} {n : String}
    (h : n ∈ l.map Prod.fst) : ∃ g, gainGet l n = some g := by
  induction l with
  | nil => cases h
  | cons p t ih =>
    obtain ⟨n', g'⟩ := p
    by_cases hn : n' = n
    · exact ⟨g', by simp [gainGet, hn]⟩
    · have hnt : n ∈ t.map Prod.fst := by
        rcases List.mem_map.mp h with ⟨q, hq, hfst⟩
        rcases List.mem_cons.mp hq with rfl | hq'
        · exact absurd hfst hn
        · exact List.mem_map.mpr ⟨q, hq', hfst⟩
      rcases ih hnt with ⟨g, hg⟩
      exact ⟨g, by simp [gainGet, hn, hg]⟩

/-- C10 (amended): for a detector whose amplifier bounding boxes are
pairwise disjoint, and a gain dict whose key set equals the amplifier
names exactly, the flat holds every amplifier's gain on every pixel of
its bbox and has all-zero mask and variance planes; a mismatched key set
is rejected before any pixel is written. -/
theorem makeGainFlat_spec (detectorExposure : Exposure)
    (gainDict : List (String × ℚ))
    (hdisj : detectorExposure.detector.Pairwise (fun a b => ∀ p : ℤ × ℤ,
      ¬ (a.bbox.containsPt p ∧ b.bbox.containsPt p))) :
    ((∀ n ∈ gainDict.map Prod.fst,
          n ∈ detectorExposure.detector.map Amplifier.name)
        ∧ (∀ n ∈ detectorExposure.detector.map Amplifier.name,
          n ∈ gainDict.map Prod.fst) →
      ∃ flat, makeGainFlat detectorExposure gainDict = some flat
        ∧ (∀ amp ∈ detectorExposure.detector, ∀ p : ℤ × ℤ,
            amp.bbox.containsPt p →
              ∃ g, gainGet gainDict amp.name = some g
                ∧ flat.maskedImage.image p = g)
        ∧ (∀ p : ℤ × ℤ, flat.maskedImage.mask p = 0)
        ∧ (∀ p : ℤ × ℤ, flat.maskedImage.variance p = 0))
      ∧ (¬ ((∀ n ∈ gainDict.map Prod.fst,
            n ∈ detectorExposure.detector.map Amplifier.name)
          ∧ (∀ n ∈ detectorExposure.detector.map Amplifier.name,
            n ∈ gainDict.map Prod.fst)) →
        makeGainFlat detectorExposure gainDict = none) := by
  constructor
  · intro hkeys
    refine ⟨⟨detectorExposure.detector,
        ⟨detectorExposure.detector.foldl
          (fun img amp =>
            writeAmpGain img amp ((gainGet gainDict amp.name).getD 0))
          detectorExposure.maskedImage.image,
        fun _ => 0, fun _ => 0⟩⟩, ?_, ?_, fun p => rfl, fun p => rfl⟩
    · unfold makeGainFlat
      dsimp only
      rw [if_pos hkeys]
    · intro amp hamp p hp
      obtain ⟨g, hg⟩ := gainGet_isSome_of_key_mem
        (hkeys.2 amp.name (List.mem_map.mpr ⟨amp, hamp, rfl⟩))
      refine ⟨g, hg, ?_⟩
      show detectorExposure.detector.foldl
          (fun img amp =>
            writeAmpGain img amp ((gainGet gainDict amp.name).getD 0))
          detectorExposure.maskedImage.image p = g
      rw [writeAmps_of_contains (fun amp => (gainGet gainDict amp.name).getD 0)
        detectorExposure.detector detectorExposure.maskedImage.image p amp
        hdisj hamp hp, hg]
      rfl
  · intro hkeys
    unfold makeGainFlat
    dsimp only
    rw [if_neg hkeys]

/-- First amplifier of the disjoint witness detector: pixel (0, 0). -/
def ampDisjointA : Amplifier := ⟨"A", ⟨0, 0, 0, 0⟩⟩

/-- Second amplifier of the disjoint witness detector: pixel (1, 0). -/
def ampDisjointB : Amplifier := ⟨"B", ⟨1, 0, 1, 0⟩⟩

/-- A witness exposure with two disjoint one-pixel amplifiers and
nonzero initial planes. -/
def disjointExposure : Exposure :=
  ⟨[ampDisjointA, ampDisjointB], ⟨fun _ => 7, fun _ => 3, fun _ => 5⟩⟩

/-- Gains for the disjoint witness detector. -/
def disjointGains : List (String × ℚ) := [("A", 3), ("B", 4)]

/-- Witness for C10: on the disjoint two-amplifier detector the flat
holds gain 3 on amplifier A's pixel, gain 4 on amplifier B's pixel, and
zero mask and variance everywhere (sampled at (5, 5)). -/
theorem makeGainFlat_spec_witness :
    ∃ flat, makeGainFlat disjointExposure disjointGains = some flat
      ∧ flat.maskedImage.image (0, 0) = 3
      ∧ flat.maskedImage.image (1, 0) = 4
      ∧ flat.maskedImage.mask (5, 5) = 0
      ∧ flat.maskedImage.variance (5, 5) = 0 := by
  have hdisj : disjointExposure.detector.Pairwise (fun a b => ∀ p : ℤ × ℤ,
      ¬ (a.bbox.containsPt p ∧ b.bbox.containsPt p)) := by
    refine List.pairwise_cons.mpr ⟨?_, List.pairwise_cons.mpr
      ⟨?_, List.Pairwise.nil⟩⟩
    · intro c hc p hp
      obtain rfl : c = ampDisjointB := List.mem_singleton.mp hc
      obtain ⟨⟨h1, h2, _, _⟩, ⟨h3, h4, _, _⟩⟩ := hp
      simp only [ampDisjointA, ampDisjointB] at h1 h2 h3 h4
      omega
    · intro c hc
      cases hc
  obtain ⟨flat, hsome, himg, hmask, hvar⟩ :=
    (makeGainFlat_spec disjointExposure disjointGains hdisj).1 (by decide)
  obtain ⟨gA, hgA, hvA⟩ := himg ampDisjointA (by decide) (0, 0) (by decide)
  obtain ⟨gB, hgB, hvB⟩ := himg ampDisjointB (by decide) (1, 0) (by decide)
  have hgA3 : gA = 3 := by
    have h3 : gainGet disjointGains ampDisjointA.name = some 3 := by decide
    rw [h3] at hgA
    exact (Option.some_injective _ hgA).symm
  have hgB4 : gB = 4 := by
    have h4 : gainGet disjointGains ampDisjointB.name = some 4 := by decide
    rw [h4] at hgB
    exact (Option.some_injective _ hgB).symm
  exact ⟨flat, hsome, hgA3 ▸ hvA, hgB4 ▸ hvB, hmask _, hvar _⟩

end Atmospec
